import Mathlib

/-!
Shallow embedding of the analytical core of the EscuchaDeMedios repository
(files `osint-crawler-sentiment.py` and `osint-asr-pipeline.py`):

* the trend tracker (`extract_hashtags_and_trends` / `_analyze_trend` /
  `_calculate_viral_probability`) with its Redis-backed window counters,
* the collective-sentiment aggregator (`analyze_collective_sentiment` /
  `_calculate_social_tension` / `_detect_conflict_indicators`),
* the two vector-store write paths (`_store_pinecone`, `_store_pgvector`).

Python floats are embedded as exact rationals (`ℚ`), Python ints as `ℕ`/`ℤ`,
dictionaries as insertion-ordered association lists (CPython dicts preserve
insertion order), and `Counter` as an insertion-ordered multiset of entries.
Python's stable sorts (`list.sort`, `sorted`, and `Counter.most_common`, the
latter documented as equivalent to `sorted(..., reverse=True)[:n]`) are
embedded as `List.insertionSort` with a non-strict descending relation, which
is a stable sort and hence extensionally equal to any other stable sort by
the same key.
-/

/-! ### Python-style string helpers -/

/-- Embedding of Python's `\w` character class for the ASCII range
(letters, digits, underscore).  The concrete inputs used in this
development are ASCII, where this matches Python exactly. -/
def isWordChar (c : Char) : Bool := c.isAlphanum || c == '_'

/-- Embedding of Python's `str.lower()` for the ASCII range (Lean's
`Char.toLower` lowers exactly the ASCII uppercase letters; non-ASCII
characters pass through unchanged, which agrees with Python on inputs
whose non-ASCII characters are already lowercase). -/
def pyLower (s : String) : String := String.mk (s.data.map Char.toLower)

/-- Does `pat` match at the very start of the character list? -/
def matchesAt : List Char → List Char → Bool
  | [], _ => true
  | _ :: _, [] => false
  | p :: ps, c :: cs => p == c && matchesAt ps cs

/-- Does `pat` occur somewhere in the character list? -/
def hasSub (pat : List Char) : List Char → Bool
  | [] => pat.isEmpty
  | c :: cs => matchesAt pat (c :: cs) || hasSub pat cs

/-- Embedding of Python's substring test `pat in text`. -/
def pyIn (pat text : String) : Bool := hasSub pat.data text.data

/-- Embedding of Python's slice `s[:n]` (Python slices strings by code
point, exactly `List.take` on the character list). -/
def pyTake (s : String) (n : ℕ) : String := String.mk (s.data.take n)

/-- Structural reformulation of `re.findall(r'#\w+', text)`: scan the
characters left to right; a `#` opens a candidate match, subsequent
`\w` characters extend it, and a candidate with at least one word
character is emitted (matches are non-overlapping, leftmost-first,
exactly as `re.findall` produces them).  The accumulator holds the word
characters of the open candidate in reverse order. -/
def hashtagScan : Option (List Char) → List Char → List String
  | none, [] => []
  | some w, [] => if w.isEmpty then [] else [String.mk ('#' :: w.reverse)]
  | none, c :: cs => if c == '#' then hashtagScan (some []) cs else hashtagScan none cs
  | some w, c :: cs =>
      if isWordChar c then hashtagScan (some (c :: w)) cs
      else (if w.isEmpty then [] else [String.mk ('#' :: w.reverse)]) ++
        hashtagScan (if c == '#' then some [] else none) cs

/-- Embedding of Python's `list(set(xs))` for the hashtag lists of
`_extract_hashtags`.  CPython's set iteration order is implementation
defined; it is modelled here as first-occurrence order.  Every claim
settled below is arranged so that this ordering choice is immaterial
(each concrete document carries at most one distinct hashtag). -/
def dedupFirstAux (seen : List String) : List String → List String
  | [] => []
  | x :: xs =>
      if seen.contains x then dedupFirstAux seen xs
      else x :: dedupFirstAux (x :: seen) xs

/-- First-occurrence deduplication, see `dedupFirstAux`. -/
def dedupFirst (l : List String) : List String := dedupFirstAux [] l

/-! ### Python `Counter` and `most_common` -/

/-- One `Counter` update step: increment the entry of an existing key in
place, or append a fresh key at the end (CPython dicts preserve
insertion order, so a `Counter` built from a list holds its distinct
keys in first-occurrence order). -/
def counterAdd {α : Type} [DecidableEq α] : List (α × ℕ) → α → List (α × ℕ)
  | [], x => [(x, 1)]
  | p :: ps, x => if p.1 = x then (p.1, p.2 + 1) :: ps else p :: counterAdd ps x

/-- Embedding of `collections.Counter(l)` as an insertion-ordered list of
`(key, count)` entries. -/
def pyCounter {α : Type} [DecidableEq α] (l : List α) : List (α × ℕ) :=
  l.foldl counterAdd []

/-- Embedding of `Counter.most_common(n)`, which is documented as
`sorted(counter.items(), key=count, reverse=True)[:n]` — a stable
descending sort by count followed by truncation. -/
def most_common {α : Type} (c : List (α × ℕ)) (n : ℕ) : List (α × ℕ) :=
  (List.insertionSort (fun a b => b.2 ≤ a.2) c).take n

/-- Mean of a list of rationals, as `np.mean` on a nonempty list
(`sum / len`). -/
def listMean (l : List ℚ) : ℚ := l.sum / l.length

/-! ### Data model of `osint-crawler-sentiment.py` -/

/-- Sentiment polarity (`class Polaridad(Enum)`). -/
inductive Polaridad
  | positivo
  | negativo
  | neutral
deriving DecidableEq

/-- Emotion labels (`class Emocion(Enum)`). -/
inductive Emocion
  | enojo
  | miedo
  | alegria
  | tristeza
  | sorpresa
  | disgusto
deriving DecidableEq

/-- The `.value` string of each `Emocion` enum member. -/
def Emocion.value : Emocion → String
  | .enojo => "enojo"
  | .miedo => "miedo"
  | .alegria => "alegría"
  | .tristeza => "tristeza"
  | .sorpresa => "sorpresa"
  | .disgusto => "disgusto"

/-- A news article after sentiment analysis (`@dataclass Articulo`).
Only the fields read by the trend tracker and the collective aggregator
are carried (`url`, `fuente`, `fecha_publicacion`, `autor`, `categoria`,
`tags`, `shares`, `comentarios`, `vistas` are never read by those
functions).  `emociones` is the insertion-ordered embedding of the
Python dict `Dict[Emocion, float]`. -/
structure Articulo where
  id : String
  titulo : String
  contenido : String
  sentimiento : Polaridad
  emociones : List (Emocion × ℚ)
  score_sentimiento : ℚ
deriving DecidableEq

/-- A trending topic (`@dataclass TrendingTopic`).  The wall-clock
`timestamp` field (set to `datetime.now()`) carries no analytical
content and is omitted. -/
structure TrendingTopic where
  hashtag : String
  menciones : ℕ
  crecimiento_24h : ℚ
  velocidad : ℚ
  sentimiento_promedio : ℚ
  emociones_dominantes : List Emocion
  articulos_relacionados : List String
  probabilidad_viral : ℚ
deriving DecidableEq

/-- The collective snapshot (`@dataclass AnalisisColectivo`). -/
structure AnalisisColectivo where
  periodo : String
  distribucion_emociones : List (Emocion × ℚ)
  polaridad_dominante : Polaridad
  temas_calientes : List TrendingTopic
  nivel_tension_social : ℚ
  indicadores_conflicto : List String
deriving DecidableEq

/-! ### The Redis counter store -/

/-- The Redis key-value store used by the trend tracker, as a list of
`(key, value, ttl)` triples; the most recent binding of a key shadows
older ones. -/
abbrev RedisStore := List (String × ℕ × ℕ)

/-- Embedding of `redis_client.get(k)` (restricted to the integer
values this module stores). -/
def redisGet (s : RedisStore) (k : String) : Option ℕ :=
  (s.find? (fun e => e.1 == k)).map (fun e => e.2.1)

/-- Embedding of `redis_client.setex(k, ttl, v)`: bind `k` to `v` with
the given time-to-live, replacing any previous binding. -/
def redisSetex (s : RedisStore) (k : String) (ttl : ℕ) (v : ℕ) : RedisStore :=
  (k, v, ttl) :: s.filter (fun e => e.1 != k)

/-! ### Trend tracker (`_analyze_trend` and friends)

The local variables of `_analyze_trend` are hoisted into named
definitions (each named after the corresponding Python local) so that
theorems can refer to the intermediate quantities. -/

/-- Embedding of `_extract_hashtags` on the code path where the spaCy
model is unavailable (`self.nlp is None`): the explicit-hashtag regex
matches on the lowercased text, then `list(set(...))` deduplicates. -/
def extract_hashtags (text : String) : List String :=
  dedupFirst (hashtagScan none (pyLower text).data)

/-- The prior-window count read by `_analyze_trend`:
`int(redis.get(f"hashtag:{hashtag}:24h"))` with a missing key read as 0. -/
def menciones_previas (store : RedisStore) (hashtag : String) : ℕ :=
  (redisGet store ("hashtag:" ++ hashtag ++ ":24h")).getD 0

/-- The growth computation of `_analyze_trend` (lines 474-478):
`((actuales - previas) / previas) * 100` when a prior count exists,
else `100` if the current count exceeds 5 and `0` otherwise. -/
def crecimientoDe (previas actuales : ℕ) : ℚ :=
  if 0 < previas then (((actuales : ℚ) - (previas : ℚ)) / (previas : ℚ)) * 100
  else if 5 < actuales then 100 else 0

/-- Embedding of `velocidad = menciones_actuales / 24` (mentions per hour over the
assumed 24h window). -/
def velocidadDe (actuales : ℕ) : ℚ := (actuales : ℚ) / 24

/-- The articles whose lowercased `titulo + " " + contenido` contains
the hashtag as a substring (the filter used for
`articulos_relacionados`, `sentimientos` and `all_emociones`). -/
def relacionados (hashtag : String) (articulos : List Articulo) : List Articulo :=
  articulos.filter (fun a => pyIn hashtag (pyLower (a.titulo ++ " " ++ a.contenido)))

/-- The value `sentimiento_promedio`: mean of the related articles' sentiment
scores, `0.0` when there are none. -/
def sentimientoPromedioDe (hashtag : String) (articulos : List Articulo) : ℚ :=
  let sentimientos := (relacionados hashtag articulos).map (fun a => a.score_sentimiento)
  if sentimientos.isEmpty then 0 else listMean sentimientos

/-- One step of the `defaultdict(list)` accumulation of emotion scores:
append the score to an existing emotion's list, or append a fresh
emotion entry at the end. -/
def emoAppend : List (Emocion × List ℚ) → Emocion → ℚ → List (Emocion × List ℚ)
  | [], e, s => [(e, [s])]
  | p :: ps, e, s =>
      if p.1 = e then (p.1, p.2 ++ [s]) :: ps else p :: emoAppend ps e s

/-- The `all_emociones` accumulation over a list of articles (used both
by `_analyze_trend` on the related articles and by
`analyze_collective_sentiment` on the whole batch). -/
def collectEmotionLists (articulos : List Articulo) : List (Emocion × List ℚ) :=
  articulos.foldl (fun acc a => a.emociones.foldl (fun acc2 es => emoAppend acc2 es.1 es.2) acc) []

/-- The value `emociones_dominantes`: per-emotion mean over the related articles,
stably sorted by mean descending (`sorted(..., reverse=True)`), top 3,
keys only. -/
def emocionesDominantesDe (hashtag : String) (articulos : List Articulo) : List Emocion :=
  let emociones_promedio :=
    (collectEmotionLists (relacionados hashtag articulos)).map (fun p => (p.1, listMean p.2))
  ((List.insertionSort (fun a b => b.2 ≤ a.2) emociones_promedio).take 3).map (fun p => p.1)

/-- Embedding of `_calculate_viral_probability` (lines 540-563). -/
def calculate_viral_probability (menciones : ℕ) (crecimiento velocidad intensidad_sentimiento : ℚ) : ℚ :=
  let norm_menciones := min ((menciones : ℚ) / 100) 1
  let norm_crecimiento := min (crecimiento / 200) 1
  let norm_velocidad := min (velocidad / 10) 1
  let norm_sentimiento := intensidad_sentimiento
  let probabilidad :=
    norm_menciones * (3/10) + norm_crecimiento * (35/100) +
      norm_velocidad * (25/100) + norm_sentimiento * (1/10)
  min probabilidad 1

/-- The `probabilidad_viral` value computed inside `_analyze_trend` for
a candidate: `_calculate_viral_probability(actuales, crecimiento,
velocidad, abs(sentimiento_promedio))`. -/
def probabilidadViralDe (store : RedisStore) (hashtag : String) (actuales : ℕ)
    (articulos : List Articulo) : ℚ :=
  calculate_viral_probability actuales
    (crecimientoDe (menciones_previas store hashtag) actuales)
    (velocidadDe actuales)
    |sentimientoPromedioDe hashtag articulos|

/-- Embedding of `_analyze_trend` (lines 459-538): read the prior count,
compute growth, velocity, related articles, average sentiment, dominant
emotions and viral probability, write the current count back to Redis
(`setex(redis_key, 86400, actuales)` — note: to key `"hashtag:"++h`,
without the `":24h"` suffix used by the read), then apply the admission
filter `probabilidad_viral > 0.3 or crecimiento > 50`.  Returns the
updated store together with the optional topic. -/
def analyze_trend (hashtag : String) (actuales : ℕ) (articulos : List Articulo)
    (store : RedisStore) : RedisStore × Option TrendingTopic :=
  let redis_key := "hashtag:" ++ hashtag
  let previas := menciones_previas store hashtag
  let crecimiento := crecimientoDe previas actuales
  let velocidad := velocidadDe actuales
  let probabilidad_viral := probabilidadViralDe store hashtag actuales articulos
  let store' := redisSetex store redis_key 86400 actuales
  if probabilidad_viral > 3/10 ∨ crecimiento > 50 then
    (store',
      some { hashtag := hashtag
             menciones := actuales
             crecimiento_24h := crecimiento
             velocidad := velocidad
             sentimiento_promedio := sentimientoPromedioDe hashtag articulos
             emociones_dominantes := emocionesDominantesDe hashtag articulos
             articulos_relacionados := (relacionados hashtag articulos).map (fun a => a.id)
             probabilidad_viral := probabilidad_viral })
  else (store', none)

/-- The loop of `extract_hashtags_and_trends` over the trend candidates:
run `_analyze_trend` on each, threading the Redis store, and keep the
topics that pass the admission filter, in candidate order. -/
def analyzeAll (articulos : List Articulo) (store : RedisStore) :
    List (String × ℕ) → RedisStore × List TrendingTopic
  | [] => (store, [])
  | (h, c) :: rest =>
    let step := analyze_trend h c articulos store
    let next := analyzeAll articulos step.1 rest
    (next.1, match step.2 with
             | some t => t :: next.2
             | none => next.2)

/-- The concatenated hashtag lists of all articles
(`all_hashtags.extend(...)` over the batch). -/
def allHashtags (articulos : List Articulo) : List String :=
  articulos.foldl (fun acc a => acc ++ extract_hashtags (a.titulo ++ " " ++ a.contenido)) []

/-- Embedding of `extract_hashtags_and_trends` (lines 407-438): extract
and count hashtags, analyze the top-20 candidates by mention count, and
stably sort the surviving topics by `probabilidad_viral` descending
(`list.sort(key=..., reverse=True)`).  Returns the final Redis store
and the ranked topic list. -/
def extract_hashtags_and_trends (articulos : List Articulo) (store : RedisStore) :
    RedisStore × List TrendingTopic :=
  let hashtag_counts := pyCounter (allHashtags articulos)
  let result := analyzeAll articulos store (most_common hashtag_counts 20)
  (result.1, List.insertionSort (fun a b => b.probabilidad_viral ≤ a.probabilidad_viral) result.2)

/-! ### Collective aggregator (`analyze_collective_sentiment` and friends) -/

/-- The `.value` strings of the emotions counted as negative by
`_calculate_social_tension` (`emociones_negativas`). -/
def emociones_negativas : List String := ["enojo", "miedo", "tristeza", "disgusto"]

/-- Embedding of `_calculate_social_tension` (lines 607-643): the ratio
of negative-polarity articles, the per-article mean of summed
negative-emotion scores, the ratio of trends with growth over 100, then
`(ratio_negativos * 40 + intensidad_negativa * 30 + ratio_explosivo * 30) * 100`
capped at 100 by `min`. -/
def calculate_social_tension (articulos : List Articulo) (trending : List TrendingTopic) : ℚ :=
  let negativos : ℕ := (articulos.filter (fun a => a.sentimiento = Polaridad.negativo)).length
  let ratio_negativos : ℚ :=
    if ¬articulos.isEmpty then (negativos : ℚ) / (articulos.length : ℚ) else 0
  let intensidad_sum : ℚ :=
    (articulos.map (fun a =>
      ((a.emociones.filter (fun es => emociones_negativas.contains es.1.value)).map
        (fun es => es.2)).sum)).sum
  let intensidad_negativa : ℚ :=
    intensidad_sum / (if ¬articulos.isEmpty then (articulos.length : ℚ) else 1)
  let trending_explosivo : ℕ := (trending.filter (fun t => t.crecimiento_24h > 100)).length
  let ratio_explosivo : ℚ :=
    if ¬trending.isEmpty then (trending_explosivo : ℚ) / (trending.length : ℚ) else 0
  let tension := (ratio_negativos * 40 + intensidad_negativa * 30 + ratio_explosivo * 30) * 100
  min tension 100

/-- The conflict keyword list of `_detect_conflict_indicators`. -/
def conflict_keywords : List String :=
  ["protesta", "manifestación", "paro", "huelga", "reclamo",
   "crisis", "conflicto", "tensión", "enfrentamiento",
   "violencia", "represión", "descontento", "indignación"]

/-- Embedding of `_detect_conflict_indicators` (lines 645-683): one line
per top-10 trend whose hashtag contains a conflict keyword, plus a
summary line when more than 20% of the article titles contain one.  The
human-readable numeric interpolation of the Python f-strings (mention
counts, growth percentage) is abbreviated; no claim inspects the text
of an indicator. -/
def detect_conflict_indicators (articulos : List Articulo) (trending : List TrendingTopic) :
    List String :=
  let indicadores :=
    (trending.take 10).filterMap (fun topic =>
      if conflict_keywords.any (fun k => pyIn k (pyLower topic.hashtag)) then
        some ("Trending: " ++ topic.hashtag)
      else none)
  let titulares_conflicto : ℕ :=
    (articulos.filter (fun a =>
      conflict_keywords.any (fun k => pyIn k (pyLower a.titulo)))).length
  if (titulares_conflicto : ℚ) > (articulos.length : ℚ) * (2/10) then
    indicadores ++ ["articulos mencionan conflicto: " ++ toString titulares_conflicto]
  else indicadores

/-- Embedding of `analyze_collective_sentiment` (lines 569-605).  The
source evaluates `Counter(sentimientos).most_common(1)[0][0]`, which
raises `IndexError` when the batch is empty; that failure is embedded
as `none`. -/
def analyze_collective_sentiment (articulos : List Articulo) (trending : List TrendingTopic) :
    Option AnalisisColectivo :=
  let distribucion_emociones :=
    (collectEmotionLists articulos).map (fun p => (p.1, listMean p.2))
  let sentimientos := articulos.map (fun a => a.sentimiento)
  match (most_common (pyCounter sentimientos) 1).head? with
  | none => none
  | some p =>
      some { periodo := "24h"
             distribucion_emociones := distribucion_emociones
             polaridad_dominante := p.1
             temas_calientes := trending.take 10
             nivel_tension_social := calculate_social_tension articulos trending
             indicadores_conflicto := detect_conflict_indicators articulos trending }

/-! ### Vector store backends of `osint-asr-pipeline.py` -/

/-- An identified key actor (`@dataclass Actor`), restricted to the
fields the storage layer reads (`name`, `mentions`). -/
structure ActorM where
  name : String
  mentions : ℕ
deriving DecidableEq

/-- An audio source (`@dataclass AudioSource`), restricted to the fields
the storage layer reads. -/
structure AudioSourceM where
  id : String
  channel_name : String
  source_type : String
deriving DecidableEq

/-- A fully processed audio item (`@dataclass ProcessedAudio`),
restricted to the fields the storage layer reads; the wall-clock
`processed_at` and the raw `segments` are omitted. -/
structure ProcessedAudio where
  source : AudioSourceM
  transcription : String
  temas : List String
  actors : List ActorM
  keywords : List String
  embeddings : List ℚ
deriving DecidableEq

/-- The metadata record `_store_pinecone` builds for the upsert. -/
structure PineconeMetadata where
  source_id : String
  channel_name : String
  transcription : String
  temas : List String
  actors : List String
  keywords : List String
deriving DecidableEq

/-- A Pinecone index, as the id-keyed collection of `(id, vector,
metadata)` records that queries can observe. -/
structure PineconeIndex where
  vectors : List (String × List ℚ × PineconeMetadata)
deriving DecidableEq

/-- Modelled from the spec: the managed index service's
`upsert(id, embedding, metadata)` is keyed by `id` and replaces the
prior vector and metadata entirely (last-write-wins); the client call
`self.vector_index.upsert(vectors=[(id, values, metadata)])` in
`_store_pinecone` is external-library behaviour not present in `src/`. -/
def pineconeUpsert (idx : PineconeIndex) (id : String) (emb : List ℚ)
    (meta : PineconeMetadata) : PineconeIndex :=
  ⟨(id, emb, meta) :: idx.vectors.filter (fun v => v.1 ≠ id)⟩

/-- The metadata dictionary built by `_store_pinecone` (lines 533-541);
`processed_at` (wall clock) is omitted. -/
def pineconeMetadataOf (p : ProcessedAudio) : PineconeMetadata :=
  { source_id := p.source.id
    channel_name := p.source.channel_name
    transcription := pyTake p.transcription 1000
    temas := p.temas
    actors := p.actors.map (fun a => a.name)
    keywords := p.keywords }

/-- Embedding of `_store_pinecone` (lines 529-553): a single upsert of
`(source.id, embeddings, metadata)`. -/
def store_pinecone (idx : PineconeIndex) (p : ProcessedAudio) : PineconeIndex :=
  pineconeUpsert idx p.source.id p.embeddings (pineconeMetadataOf p)

/-- One row of the `audio_transcriptions` table (schema in
`_setup_pgvector_schema`): `id SERIAL PRIMARY KEY` plus the columns
written by `_store_pgvector`. -/
structure PgRow where
  id : ℕ
  source_id : String
  channel_name : String
  transcription : String
  temas : List String
  actors : List ActorM
  keywords : List String
  embedding : List ℚ
  metadata_source_type : String
deriving DecidableEq

/-- The `audio_transcriptions` table: its rows and the next value of the
`SERIAL` id sequence. -/
structure PgTable where
  rows : List PgRow
  next_id : ℕ
deriving DecidableEq

/-- Embedding of `_store_pgvector` (lines 555-576): the literal
`INSERT INTO audio_transcriptions (source_id, ...) VALUES (...)`
appends one new row with the next serial `id` — there is no
`ON CONFLICT` clause and `source_id` carries no uniqueness constraint,
so every call adds a row. -/
def store_pgvector (t : PgTable) (p : ProcessedAudio) : PgTable :=
  { rows := t.rows ++
      [{ id := t.next_id
         source_id := p.source.id
         channel_name := p.source.channel_name
         transcription := p.transcription
         temas := p.temas
         actors := p.actors
         keywords := p.keywords
         embedding := p.embeddings
         metadata_source_type := p.source.source_type }]
    next_id := t.next_id + 1 }

/-! ### Concrete inputs used to instantiate and refute claims -/

/-- A minimal analyzed article: neutral polarity, no emotions, zero
sentiment score, empty body. -/
def mkArt (id titulo : String) : Articulo :=
  { id := id, titulo := titulo, contenido := "", sentimiento := Polaridad.neutral,
    emociones := [], score_sentimiento := 0 }

/-- Six articles mentioning `#aa`: enough mentions (6 > 5) for a fresh
topic to get growth 100 and pass the admission filter. -/
def artsA : List Articulo :=
  [mkArt "a1" "#aa", mkArt "a2" "#aa", mkArt "a3" "#aa",
   mkArt "a4" "#aa", mkArt "a5" "#aa", mkArt "a6" "#aa"]

/-- Twelve articles: six mentioning `#bb` (first), then six mentioning
`#aa` — the two topics tie on mention count and on viral probability,
with `#bb` encountered first. -/
def artsBA : List Articulo :=
  [mkArt "b1" "#bb", mkArt "b2" "#bb", mkArt "b3" "#bb",
   mkArt "b4" "#bb", mkArt "b5" "#bb", mkArt "b6" "#bb",
   mkArt "a1" "#aa", mkArt "a2" "#aa", mkArt "a3" "#aa",
   mkArt "a4" "#aa", mkArt "a5" "#aa", mkArt "a6" "#aa"]

/-- The topic `extract_hashtags_and_trends` produces for `#aa` on
`artsA` (and on `artsBA`, where the related articles are the six
`a`-articles): prior count 0, current 6, growth 100, velocity 6/24,
viral probability 6/100·0.3 + min(100/200,1)·0.35 + (1/4/10)·0.25 =
797/4000. -/
def topicAA : TrendingTopic :=
  { hashtag := "#aa", menciones := 6, crecimiento_24h := 100, velocidad := 1/4,
    sentimiento_promedio := 0, emociones_dominantes := [],
    articulos_relacionados := ["a1", "a2", "a3", "a4", "a5", "a6"],
    probabilidad_viral := 797/4000 }

/-- The topic produced for `#bb` on `artsBA`; same scores as `topicAA`. -/
def topicBB : TrendingTopic :=
  { hashtag := "#bb", menciones := 6, crecimiento_24h := 100, velocidad := 1/4,
    sentimiento_promedio := 0, emociones_dominantes := [],
    articulos_relacionados := ["b1", "b2", "b3", "b4", "b5", "b6"],
    probabilidad_viral := 797/4000 }

/-- An article with negative polarity and no emotion scores. -/
def cexNegArt : Articulo :=
  { id := "x1", titulo := "tx", contenido := "", sentimiento := Polaridad.negativo,
    emociones := [], score_sentimiento := 0 }

/-- A neutral-polarity article (first in the tie-break batch). -/
def cexNeutralArt : Articulo := mkArt "n1" "tn"

/-- A positive-polarity article (second in the tie-break batch). -/
def cexPositivoArt : Articulo :=
  { id := "p1", titulo := "tp", contenido := "", sentimiento := Polaridad.positivo,
    emociones := [], score_sentimiento := 0 }

/-- A concrete processed audio item for the vector-store claims. -/
def cexAudio : ProcessedAudio :=
  { source := { id := "s1", channel_name := "ch", source_type := "radio" }
    transcription := "tr", temas := [], actors := [], keywords := [], embeddings := [] }

/-- The empty `audio_transcriptions` table (the `SERIAL` sequence of
PostgreSQL starts at 1). -/
def pgEmpty : PgTable := { rows := [], next_id := 1 }

/-! ### A first-maximum selector used to characterize `most_common` -/

/-- The first entry of maximal count, scanning left to right (a later
entry replaces the current best only when strictly greater — i.e. on a
tie the earlier entry wins).  `head? ∘ insertionSort (descending by
count)` computes exactly this (proved below), which characterizes
`most_common c 1`. -/
def firstMaxEntry {α : Type} : List (α × ℕ) → Option (α × ℕ)
  | [] => none
  | x :: c =>
      match firstMaxEntry c with
      | none => some x
      | some y => some (if y.2 ≤ x.2 then x else y)

/-- The keys of a counter, in order. -/
def counterKeys {α : Type} (c : List (α × ℕ)) : List α := c.map Prod.fst

/-! ### C7: the growth rule -/

/-- C7: the growth computation of `_analyze_trend` satisfies the
claimed rule: with a prior count of 0 the growth is 100 when the
current count exceeds 5 and 0 otherwise (so `prior=0, current=6` gives
100 and `prior=0, current=3` gives 0), and with a positive prior count
it is `(current - prior) / prior * 100`. -/
theorem c7_growth_rule (previas actuales : ℕ) :
    (previas = 0 → crecimientoDe previas actuales = if 5 < actuales then 100 else 0) ∧
    (0 < previas →
      crecimientoDe previas actuales = (((actuales : ℚ) - previas) / previas) * 100) := by
  constructor
  · intro h
    subst h
    simp [crecimientoDe]
  · intro h
    simp [crecimientoDe, h]

/-- Witness for C7 at `prior=2, current=3`, `prior=0, current=6` and
`prior=0, current=3`. -/
theorem c7_growth_rule_witness :
    (0 < 2 ∧ crecimientoDe 2 3 = (((3 : ℚ) - 2) / 2) * 100) ∧
    (crecimientoDe 0 6 = if 5 < 6 then 100 else 0) ∧
    (crecimientoDe 0 3 = if 5 < 3 then 100 else 0) :=
  ⟨⟨by decide, (c7_growth_rule 2 3).2 (by decide)⟩,
   (c7_growth_rule 0 6).1 rfl, (c7_growth_rule 0 3).1 rfl⟩

/-! ### C10: the counter-store write is unconditional -/

/-- The store returned by `_analyze_trend` is always
`setex("hashtag:"++h, 86400, current)` applied to the incoming store,
whether or not the candidate passes the admission filter. -/
theorem analyze_trend_fst (hashtag : String) (actuales : ℕ) (articulos : List Articulo)
    (store : RedisStore) :
    (analyze_trend hashtag actuales articulos store).1 =
      redisSetex store ("hashtag:" ++ hashtag) 86400 actuales := by
  simp only [analyze_trend]
  split
  · rfl
  · rfl

/-- C10: over any candidate list (in particular the top-20 list used by
`extract_hashtags_and_trends`), the final Redis store is exactly the
fold of `setex("hashtag:"++token, 86400, count)` over all candidates —
the write happens for every candidate, including those the admission
filter drops, so failing the filter affects only the returned list. -/
theorem c10_store_write_unconditional (articulos : List Articulo) :
    ∀ (cands : List (String × ℕ)) (store : RedisStore),
      (analyzeAll articulos store cands).1 =
        cands.foldl (fun s hc => redisSetex s ("hashtag:" ++ hc.1) 86400 hc.2) store := by
  intro cands
  induction cands with
  | nil => intro store; rfl
  | cons hc rest ih =>
      intro store
      obtain ⟨h, c⟩ := hc
      show (analyzeAll articulos store ((h, c) :: rest)).1 = _
      simp only [analyzeAll]
      rw [ih, analyze_trend_fst]
      rfl

/-! ### C6: the admission filter -/

/-- Shared characterization of the admission filter: `_analyze_trend`
emits a topic exactly when the computed viral probability exceeds 3/10
or the computed growth exceeds 50, and the emitted topic carries
exactly those computed values. -/
theorem analyze_trend_spec (hashtag : String) (actuales : ℕ) (articulos : List Articulo)
    (store : RedisStore) :
    ((analyze_trend hashtag actuales articulos store).2.isSome ↔
      (probabilidadViralDe store hashtag actuales articulos > 3/10 ∨
        crecimientoDe (menciones_previas store hashtag) actuales > 50)) ∧
    (∀ t, (analyze_trend hashtag actuales articulos store).2 = some t →
      t.probabilidad_viral = probabilidadViralDe store hashtag actuales articulos ∧
      t.crecimiento_24h = crecimientoDe (menciones_previas store hashtag) actuales ∧
      t.menciones = actuales ∧ t.hashtag = hashtag) := by
  constructor
  · by_cases h : probabilidadViralDe store hashtag actuales articulos > 3/10 ∨
      crecimientoDe (menciones_previas store hashtag) actuales > 50
    · simp [analyze_trend, h]
    · simp [analyze_trend, h]
  · intro t ht
    simp only [analyze_trend] at ht
    split at ht
    · simp only [Option.some.injEq] at ht
      subst ht
      exact ⟨rfl, rfl, rfl, rfl⟩
    · exact absurd ht (by simp)

/-! ### C5: upsert semantics of the two vector-store backends -/

/-- C5 (amended): on the Pinecone backend, `upsert` is idempotent by id
and a repeated upsert with the same id replaces the prior vector and
metadata entirely (last-write-wins, no duplicate records) — this lifts
to `_store_pinecone`; the pgvector backend's `_store_pgvector`, by
contrast, executes a plain `INSERT` and therefore appends one new row
(fresh serial id) on every call, so it is not idempotent. -/
theorem c5_upsert_amended :
    (∀ (idx : PineconeIndex) (id : String) (emb : List ℚ) (meta : PineconeMetadata),
      pineconeUpsert (pineconeUpsert idx id emb meta) id emb meta =
        pineconeUpsert idx id emb meta) ∧
    (∀ (idx : PineconeIndex) (id : String) (e1 e2 : List ℚ) (m1 m2 : PineconeMetadata),
      pineconeUpsert (pineconeUpsert idx id e1 m1) id e2 m2 = pineconeUpsert idx id e2 m2) ∧
    (∀ (idx : PineconeIndex) (p : ProcessedAudio),
      store_pinecone (store_pinecone idx p) p = store_pinecone idx p) ∧
    (∀ (t : PgTable) (p : ProcessedAudio),
      store_pgvector t p ≠ t ∧ (store_pgvector t p).rows.length = t.rows.length + 1) := by
  have key : ∀ (idx : PineconeIndex) (id : String) (e1 e2 : List ℚ)
      (m1 m2 : PineconeMetadata),
      pineconeUpsert (pineconeUpsert idx id e1 m1) id e2 m2 = pineconeUpsert idx id e2 m2 := by
    intro idx id e1 e2 m1 m2
    simp [pineconeUpsert, List.filter_filter]
  refine ⟨fun idx id emb meta => key idx id emb emb meta meta, key,
    fun idx p => key _ _ _ _ _ _, ?_⟩
  intro t p
  constructor
  · intro h
    have := congrArg (fun x => x.next_id) h
    simp [store_pgvector] at this
  · simp [store_pgvector]

/-- C5 (counterexample): storing the same processed audio twice through
the pgvector backend does not leave the table unchanged — the claim's
idempotence fails on that backend. -/
theorem c5_pgvector_not_idempotent :
    store_pgvector (store_pgvector pgEmpty cexAudio) cexAudio ≠
      store_pgvector pgEmpty cexAudio ∧
    (store_pgvector (store_pgvector pgEmpty cexAudio) cexAudio).rows.length = 2 ∧
    (store_pgvector pgEmpty cexAudio).rows.length = 1 := by
  refine ⟨?_, by decide, by decide⟩
  intro h
  have := congrArg (fun x => x.rows.length) h
  simp [store_pgvector] at this

/-- C6: a trend candidate is emitted by `_analyze_trend` (and hence
appears in the output of the trend-update run) if and only if its
computed `probabilidad_viral` exceeds 3/10 or its computed
`crecimiento` exceeds 50; the emitted topic's fields are exactly those
computed values. -/
theorem c6_admission_filter (hashtag : String) (actuales : ℕ) (articulos : List Articulo)
    (store : RedisStore) :
    ((analyze_trend hashtag actuales articulos store).2.isSome ↔
      (probabilidadViralDe store hashtag actuales articulos > 3/10 ∨
        crecimientoDe (menciones_previas store hashtag) actuales > 50)) ∧
    (∀ t, (analyze_trend hashtag actuales articulos store).2 = some t →
      t.probabilidad_viral = probabilidadViralDe store hashtag actuales articulos ∧
      t.crecimiento_24h = crecimientoDe (menciones_previas store hashtag) actuales ∧
      t.menciones = actuales ∧ t.hashtag = hashtag) :=
  analyze_trend_spec hashtag actuales articulos store

/-! ### C4: range of `viral_probability` for produced topics -/

/-- The computed viral probability never exceeds 1 (final `min(p, 1)`). -/
theorem calculate_viral_probability_le_one (m : ℕ) (c v s : ℚ) :
    calculate_viral_probability m c v s ≤ 1 := by
  unfold calculate_viral_probability
  exact min_le_right _ _

/-- With nonnegative growth and nonnegative sentiment intensity the
computed viral probability is nonnegative (all four weighted summands
are nonnegative). -/
theorem calculate_viral_probability_nonneg (m : ℕ) (c : ℚ) (s : ℚ)
    (hc : 0 ≤ c) (hs : 0 ≤ s) :
    0 ≤ calculate_viral_probability m c (velocidadDe m) s := by
  unfold calculate_viral_probability velocidadDe
  refine le_min ?_ zero_le_one
  have h1 : (0:ℚ) ≤ min ((m : ℚ) / 100) 1 * (3/10) :=
    mul_nonneg (le_min (by positivity) zero_le_one) (by norm_num)
  have h2 : (0:ℚ) ≤ min (c / 200) 1 * (35/100) :=
    mul_nonneg (le_min (by positivity) zero_le_one) (by norm_num)
  have h3 : (0:ℚ) ≤ min ((m : ℚ) / 24 / 10) 1 * (25/100) :=
    mul_nonneg (le_min (by positivity) zero_le_one) (by norm_num)
  have h4 : (0:ℚ) ≤ s * (1/10) := mul_nonneg hs (by norm_num)
  linarith

/-- A topic emitted by `_analyze_trend` has `probabilidad_viral ∈ [0,1]`:
either it passed the filter because its probability exceeds 3/10 (hence
positive), or because its growth exceeds 50, in which case every
summand of the probability is nonnegative. -/
theorem analyze_trend_some_bounds (hashtag : String) (actuales : ℕ)
    (articulos : List Articulo) (store : RedisStore) (t : TrendingTopic)
    (ht : (analyze_trend hashtag actuales articulos store).2 = some t) :
    0 ≤ t.probabilidad_viral ∧ t.probabilidad_viral ≤ 1 := by
  have hsome : (analyze_trend hashtag actuales articulos store).2.isSome := by
    rw [ht]; rfl
  have hcond := ((analyze_trend_spec hashtag actuales articulos store).1).mp hsome
  have hfield := ((analyze_trend_spec hashtag actuales articulos store).2 t ht).1
  rw [hfield]
  constructor
  · rcases hcond with hp | hg
    · have : (0:ℚ) < 3/10 := by norm_num
      exact le_of_lt (lt_trans this hp)
    · unfold probabilidadViralDe
      exact calculate_viral_probability_nonneg _ _ _
        (le_of_lt (lt_trans (by norm_num) hg)) (abs_nonneg _)
  · exact calculate_viral_probability_le_one _ _ _ _

/-- Every topic in the candidate loop's output comes from a successful
`_analyze_trend` call (on the store as of that candidate's turn). -/
theorem mem_analyzeAll (articulos : List Articulo) (t : TrendingTopic) :
    ∀ (cands : List (String × ℕ)) (store : RedisStore),
      t ∈ (analyzeAll articulos store cands).2 →
      ∃ h c s, (analyze_trend h c articulos s).2 = some t := by
  intro cands
  induction cands with
  | nil => intro store h; simp [analyzeAll] at h
  | cons hc rest ih =>
      intro store hmem
      obtain ⟨h, c⟩ := hc
      simp only [analyzeAll] at hmem
      rcases he : (analyze_trend h c articulos store).2 with _ | t'
      · rw [he] at hmem
        exact ih _ hmem
      · rw [he] at hmem
        rcases List.mem_cons.mp hmem with rfl | hmem'
        · exact ⟨h, c, store, he⟩
        · exact ih _ hmem'

/-- C4: every `TrendingTopic` in the list returned by
`extract_hashtags_and_trends` — including topics admitted with
negative growth — has `probabilidad_viral` in the closed interval
`[0, 1]`. -/
theorem c4_viral_probability_range (articulos : List Articulo) (store : RedisStore)
    (t : TrendingTopic) (ht : t ∈ (extract_hashtags_and_trends articulos store).2) :
    0 ≤ t.probabilidad_viral ∧ t.probabilidad_viral ≤ 1 := by
  have hmem : t ∈ (analyzeAll articulos store
      (most_common (pyCounter (allHashtags articulos)) 20)).2 := by
    have := ht
    simp only [extract_hashtags_and_trends, List.mem_insertionSort] at this
    exact this
  obtain ⟨h, c, s, hsome⟩ := mem_analyzeAll articulos t _ _ hmem
  exact analyze_trend_some_bounds h c articulos s t hsome

/-! ### Concrete evaluation of the pipeline on `artsA` -/

/-- The only trend candidate of `artsA` is `#aa` with 6 mentions. -/
theorem mc_artsA : most_common (pyCounter (allHashtags artsA)) 20 = [("#aa", 6)] := by decide

/-- Every article of `artsA` contains `#aa`. -/
theorem rel_artsA : relacionados "#aa" artsA = artsA := by decide

/-- The sentiment scores of `artsA` are all zero. -/
theorem scores_artsA : artsA.map (fun a => a.score_sentimiento) = [0, 0, 0, 0, 0, 0] := by
  decide

/-- The related-document ids computed for `#aa` on `artsA`. -/
theorem ids_artsA :
    (relacionados "#aa" artsA).map (fun a => a.id) = ["a1", "a2", "a3", "a4", "a5", "a6"] := by
  rw [rel_artsA]; decide

/-- The average sentiment for `#aa` on `artsA` is 0. -/
theorem sent_artsA : sentimientoPromedioDe "#aa" artsA = 0 := by
  rw [sentimientoPromedioDe]
  simp only [rel_artsA, scores_artsA]
  norm_num [listMean]

/-- No emotions are reported in `artsA`, so no dominant emotions. -/
theorem emo_artsA : emocionesDominantesDe "#aa" artsA = [] := by decide

/-- The viral probability for `#aa` on `artsA` with an empty store. -/
theorem viral_artsA : probabilidadViralDe [] "#aa" 6 artsA = 797/4000 := by
  rw [probabilidadViralDe, sent_artsA]
  norm_num [calculate_viral_probability, crecimientoDe, velocidadDe, menciones_previas, redisGet]

/-- Running `_analyze_trend` on `#aa` over `artsA` with an empty store admits
the topic (growth 100 > 50) and produces `topicAA`. -/
theorem analyze_artsA :
    analyze_trend "#aa" 6 artsA [] = ([("hashtag:#aa", 6, 86400)], some topicAA) := by
  have hprev : menciones_previas [] "#aa" = 0 := rfl
  have hc : crecimientoDe 0 6 = 100 := by norm_num [crecimientoDe]
  have hv : velocidadDe 6 = 1/4 := by norm_num [velocidadDe]
  have happ : ("hashtag:" ++ "#aa" : String) = "hashtag:#aa" := rfl
  simp only [analyze_trend, hprev, viral_artsA, sent_artsA, emo_artsA, ids_artsA,
    hc, hv, happ, redisSetex, List.filter_nil]
  rw [if_pos]
  · rfl
  · norm_num

/-- The full trend run on `artsA` returns exactly `[topicAA]`. -/
theorem extract_artsA : (extract_hashtags_and_trends artsA []).2 = [topicAA] := by
  simp only [extract_hashtags_and_trends, mc_artsA]
  simp [analyzeAll, analyze_artsA]

/-- Witness for C4: `topicAA` is produced by a concrete run and its
viral probability lies in `[0, 1]`. -/
theorem c4_viral_probability_range_witness :
    topicAA ∈ (extract_hashtags_and_trends artsA []).2 ∧
    0 ≤ topicAA.probabilidad_viral ∧ topicAA.probabilidad_viral ≤ 1 := by
  have hm : topicAA ∈ (extract_hashtags_and_trends artsA []).2 := by
    simp [extract_artsA]
  exact ⟨hm, c4_viral_probability_range artsA [] topicAA hm⟩

/-- Witness for C6: on the concrete run over `artsA` the topic is
emitted and carries the computed scores. -/
theorem c6_admission_filter_witness :
    (analyze_trend "#aa" 6 artsA []).2.isSome ∧
    topicAA.probabilidad_viral = probabilidadViralDe [] "#aa" 6 artsA ∧
    topicAA.crecimiento_24h = crecimientoDe (menciones_previas [] "#aa") 6 ∧
    topicAA.menciones = 6 ∧ topicAA.hashtag = "#aa" :=
  ⟨by simp [analyze_artsA],
   (c6_admission_filter "#aa" 6 artsA []).2 topicAA (by simp [analyze_artsA])⟩

/-! ### C1, C2, C3: concrete divergences of the aggregation code -/

/-- C1 (code evaluated at the failing input): on a batch holding one
negative-polarity article with no emotion scores and an empty trend
list, the code returns a social tension of 100 — the weighted sum
`0.40·1·100 = 40` claimed by the spec is multiplied by 100 again before
the cap, saturating the score. -/
theorem c1_social_tension_at_negative_article :
    calculate_social_tension [cexNegArt] [] = 100 := by
  norm_num [calculate_social_tension, cexNegArt, emociones_negativas]

/-- The store produced by a first `_analyze_trend` run on token `#x`
with count 6 over an empty store. -/
theorem fst_x : (analyze_trend "#x" 6 [] []).1 = [("hashtag:#x", 6, 86400)] := by
  rw [analyze_trend_fst]; rfl

/-- The viral probability of the second run on `#x` (the prior count
still reads as 0 because the write went to a different key). -/
theorem viral_x2 : probabilidadViralDe [("hashtag:#x", 6, 86400)] "#x" 6 [] = 797/4000 := by
  have hprev : menciones_previas [("hashtag:#x", 6, 86400)] "#x" = 0 := rfl
  rw [probabilidadViralDe, hprev]
  norm_num [calculate_viral_probability, crecimientoDe, velocidadDe,
    sentimientoPromedioDe, relacionados, listMean]

/-- The second `_analyze_trend` run on `#x` still computes growth 100,
as if there were no prior window. -/
theorem analyze_x2 :
    (analyze_trend "#x" 6 [] [("hashtag:#x", 6, 86400)]).2.map (fun t => t.crecimiento_24h) =
      some 100 := by
  have hprev : menciones_previas [("hashtag:#x", 6, 86400)] "#x" = 0 := rfl
  have hc : crecimientoDe 0 6 = 100 := by norm_num [crecimientoDe]
  simp only [analyze_trend, hprev, viral_x2, hc]
  rw [if_pos]
  · rfl
  · norm_num

/-- C2 (code evaluated at the failing input): after a run on token `#x`
with count 6, the key the code reads priors from (`hashtag:#x:24h`) is
still unbound — the write went to `hashtag:#x` — so a second identical
run reads a prior count of 0 and computes growth 100 instead of the 0
the claim implies. -/
theorem c2_redis_key_mismatch :
    redisGet (analyze_trend "#x" 6 [] []).1 "hashtag:#x:24h" = none ∧
    redisGet (analyze_trend "#x" 6 [] []).1 "hashtag:#x" = some 6 ∧
    menciones_previas (analyze_trend "#x" 6 [] []).1 "#x" = 0 ∧
    (analyze_trend "#x" 6 [] (analyze_trend "#x" 6 [] []).1).2.map
      (fun t => t.crecimiento_24h) = some 100 := by
  rw [fst_x]
  exact ⟨by decide, by decide, by decide, analyze_x2⟩

/-- C3 (code evaluated at the failing input): on the empty batch the
trend tracker does return an empty list, but the collective aggregator
does not return a snapshot — `Counter([]).most_common(1)[0][0]` raises
`IndexError`, embedded here as `none`. -/
theorem c3_empty_batch_behavior :
    extract_hashtags_and_trends [] [] = ([], []) ∧
    analyze_collective_sentiment [] [] = none :=
  ⟨rfl, rfl⟩

/-! ### Concrete evaluation of the pipeline on `artsBA` (two tied topics) -/

/-- The trend candidates of `artsBA`: `#bb` (encountered first) and
`#aa`, both with 6 mentions. -/
theorem mc_artsBA :
    most_common (pyCounter (allHashtags artsBA)) 20 = [("#bb", 6), ("#aa", 6)] := by decide

/-- The sentiment scores of the articles related to `#bb`. -/
theorem scoresBB : (relacionados "#bb" artsBA).map (fun a => a.score_sentimiento) =
    [0, 0, 0, 0, 0, 0] := by decide

/-- The related-document ids for `#bb` on `artsBA`. -/
theorem idsBB : (relacionados "#bb" artsBA).map (fun a => a.id) =
    ["b1", "b2", "b3", "b4", "b5", "b6"] := by decide

/-- The average sentiment for `#bb` on `artsBA` is 0. -/
theorem sentBB : sentimientoPromedioDe "#bb" artsBA = 0 := by
  rw [sentimientoPromedioDe]
  simp only [scoresBB]
  norm_num [listMean]

/-- No dominant emotions for `#bb` on `artsBA`. -/
theorem emoBB : emocionesDominantesDe "#bb" artsBA = [] := by decide

/-- The viral probability for `#bb` on `artsBA` with an empty store. -/
theorem viralBB : probabilidadViralDe [] "#bb" 6 artsBA = 797/4000 := by
  have hprev : menciones_previas [] "#bb" = 0 := rfl
  rw [probabilidadViralDe, hprev, sentBB]
  norm_num [calculate_viral_probability, crecimientoDe, velocidadDe]

/-- Running `_analyze_trend` on `#bb` over `artsBA` produces `topicBB`. -/
theorem analyzeBB :
    analyze_trend "#bb" 6 artsBA [] = ([("hashtag:#bb", 6, 86400)], some topicBB) := by
  have hprev : menciones_previas [] "#bb" = 0 := rfl
  have hc : crecimientoDe 0 6 = 100 := by norm_num [crecimientoDe]
  have hv : velocidadDe 6 = 1/4 := by norm_num [velocidadDe]
  have hset : redisSetex [] ("hashtag:" ++ "#bb") 86400 6 = [("hashtag:#bb", 6, 86400)] := by
    decide
  simp only [analyze_trend, hprev, viralBB, sentBB, emoBB, idsBB, hc, hv, hset]
  rw [if_pos]
  · rfl
  · norm_num

/-- The sentiment scores of the articles related to `#aa` on `artsBA`. -/
theorem scoresAA : (relacionados "#aa" artsBA).map (fun a => a.score_sentimiento) =
    [0, 0, 0, 0, 0, 0] := by decide

/-- The related-document ids for `#aa` on `artsBA`. -/
theorem idsAA : (relacionados "#aa" artsBA).map (fun a => a.id) =
    ["a1", "a2", "a3", "a4", "a5", "a6"] := by decide

/-- The average sentiment for `#aa` on `artsBA` is 0. -/
theorem sentAA : sentimientoPromedioDe "#aa" artsBA = 0 := by
  rw [sentimientoPromedioDe]
  simp only [scoresAA]
  norm_num [listMean]

/-- No dominant emotions for `#aa` on `artsBA`. -/
theorem emoAA : emocionesDominantesDe "#aa" artsBA = [] := by decide

/-- The viral probability for `#aa` on `artsBA` after the `#bb` write. -/
theorem viralAA :
    probabilidadViralDe [("hashtag:#bb", 6, 86400)] "#aa" 6 artsBA = 797/4000 := by
  have hprev : menciones_previas [("hashtag:#bb", 6, 86400)] "#aa" = 0 := rfl
  rw [probabilidadViralDe, hprev, sentAA]
  norm_num [calculate_viral_probability, crecimientoDe, velocidadDe]

/-- Running `_analyze_trend` on `#aa` over `artsBA` (store already holding the
`#bb` write) produces `topicAA`. -/
theorem analyzeAA :
    analyze_trend "#aa" 6 artsBA [("hashtag:#bb", 6, 86400)] =
      ([("hashtag:#aa", 6, 86400), ("hashtag:#bb", 6, 86400)], some topicAA) := by
  have hprev : menciones_previas [("hashtag:#bb", 6, 86400)] "#aa" = 0 := rfl
  have hc : crecimientoDe 0 6 = 100 := by norm_num [crecimientoDe]
  have hv : velocidadDe 6 = 1/4 := by norm_num [velocidadDe]
  have hset : redisSetex [("hashtag:#bb", 6, 86400)] ("hashtag:" ++ "#aa") 86400 6 =
      [("hashtag:#aa", 6, 86400), ("hashtag:#bb", 6, 86400)] := by decide
  simp only [analyze_trend, hprev, viralAA, sentAA, emoAA, idsAA, hc, hv, hset]
  rw [if_pos]
  · rfl
  · norm_num

/-- The candidate loop on `artsBA` keeps both topics, `#bb` first. -/
theorem analyzeAll_artsBA :
    (analyzeAll artsBA [] [("#bb", 6), ("#aa", 6)]).2 = [topicBB, topicAA] := by
  simp only [analyzeAll, analyzeBB, analyzeAA]

/-- The full trend run on `artsBA`: the final sort keeps `#bb` before
`#aa` (stable sort, equal probabilities). -/
theorem extract_artsBA : (extract_hashtags_and_trends artsBA []).2 = [topicBB, topicAA] := by
  simp only [extract_hashtags_and_trends, mc_artsBA, analyzeAll_artsBA]
  simp [List.insertionSort, List.orderedInsert, topicAA, topicBB]

/-! ### C8: ordering of the returned topic list -/

/-- C8 (counterexample): on `artsBA` the two produced topics tie on
`probabilidad_viral` and on `menciones`, their tokens differ, and
`topicAA`'s token is lexicographically smaller — yet the returned list
is `[topicBB, topicAA]`, so ties are not broken lexicographically by
token as the claim states. -/
theorem c8_lexicographic_tie_break_counterexample :
    (extract_hashtags_and_trends artsBA []).2 = [topicBB, topicAA] ∧
    topicBB.probabilidad_viral = topicAA.probabilidad_viral ∧
    topicBB.menciones = topicAA.menciones ∧
    topicBB.hashtag ≠ topicAA.hashtag ∧
    List.Lex (· < ·) topicAA.hashtag.data topicBB.hashtag.data := by
  refine ⟨extract_artsBA, rfl, rfl, by decide, ?_⟩
  have h : topicAA.hashtag.data = ['#', 'a', 'a'] := by decide
  have h2 : topicBB.hashtag.data = ['#', 'b', 'b'] := by decide
  rw [h, h2]
  exact List.Lex.cons (List.Lex.rel (by decide))

/-- C8 (amended): the list returned by `extract_hashtags_and_trends` is
sorted by `probabilidad_viral` descending, and the sort is stable —
topics with equal probability keep the relative order in which the
candidate loop emitted them (mention-count-descending, first-encounter
candidate order); no mention-count or lexicographic tie-break is
applied by the final sort. -/
theorem c8_sorted_by_viral_probability (articulos : List Articulo) (store : RedisStore) :
    List.Sorted (fun a b : TrendingTopic => b.probabilidad_viral ≤ a.probabilidad_viral)
      (extract_hashtags_and_trends articulos store).2 ∧
    (∀ x y : TrendingTopic, y.probabilidad_viral ≤ x.probabilidad_viral →
      List.Sublist [x, y] (analyzeAll articulos store
        (most_common (pyCounter (allHashtags articulos)) 20)).2 →
      List.Sublist [x, y] (extract_hashtags_and_trends articulos store).2) := by
  constructor
  · haveI h1 : IsTrans TrendingTopic
        (fun a b => b.probabilidad_viral ≤ a.probabilidad_viral) :=
      ⟨fun _ _ _ hab hbc => le_trans hbc hab⟩
    haveI h2 : IsTotal TrendingTopic
        (fun a b => b.probabilidad_viral ≤ a.probabilidad_viral) :=
      ⟨fun a b => le_total b.probabilidad_viral a.probabilidad_viral⟩
    exact List.sorted_insertionSort _ _
  · intro x y hxy hsub
    exact List.pair_sublist_insertionSort hxy hsub

/-- Witness for the amended C8 on the concrete batch `artsBA`. -/
theorem c8_sorted_by_viral_probability_witness :
    List.Sorted (fun a b : TrendingTopic => b.probabilidad_viral ≤ a.probabilidad_viral)
      (extract_hashtags_and_trends artsBA []).2 ∧
    List.Sublist [topicBB, topicAA] (extract_hashtags_and_trends artsBA []).2 :=
  ⟨(c8_sorted_by_viral_probability artsBA []).1,
   (c8_sorted_by_viral_probability artsBA []).2 topicBB topicAA (le_refl _)
     (by simp [mc_artsBA, analyzeAll_artsBA])⟩

/-! ### C9: the dominant polarity and its tie-break

`most_common(1)[0][0]` picks the head of the stable count-descending
sort of the counter, i.e. the first counter entry of maximal count; the
counter holds its keys in first-occurrence order, so ties are broken by
first occurrence in the batch, not by enum definition order. -/

/-- The selector `firstMaxEntry` returns `none` exactly on the empty list. -/
theorem firstMaxEntry_eq_none {α : Type} {c : List (α × ℕ)} :
    firstMaxEntry c = none ↔ c = [] := by
  cases c with
  | nil => simp [firstMaxEntry]
  | cons x c =>
      simp only [firstMaxEntry]
      cases firstMaxEntry c <;> simp

/-- Head of an ordered insert under the count-descending relation. -/
theorem head_orderedInsert {α : Type} (x : α × ℕ) (s : List (α × ℕ)) :
    (List.orderedInsert (fun a b => b.2 ≤ a.2) x s).head? =
      some (match s with
            | [] => x
            | h :: _ => if h.2 ≤ x.2 then x else h) := by
  cases s with
  | nil => rfl
  | cons h t =>
      by_cases hc : h.2 ≤ x.2 <;> simp [List.orderedInsert, hc]

/-- The head of the stable count-descending sort is the first entry of
maximal count. -/
theorem head_insertionSort_desc {α : Type} (c : List (α × ℕ)) :
    (List.insertionSort (fun a b => b.2 ≤ a.2) c).head? = firstMaxEntry c := by
  induction c with
  | nil => rfl
  | cons x c ih =>
      simp only [List.insertionSort, firstMaxEntry]
      rw [head_orderedInsert]
      cases hc : List.insertionSort (fun a b => b.2 ≤ a.2) c with
      | nil =>
          rw [hc] at ih
          rw [← ih]
          rfl
      | cons h t =>
          rw [hc] at ih
          rw [← ih]
          rfl

/-- Splitting property of `firstMaxEntry`: the selected entry has
maximal count, and every entry before it has strictly smaller count. -/
theorem firstMaxEntry_spec {α : Type} :
    ∀ (c : List (α × ℕ)) (e : α × ℕ), firstMaxEntry c = some e →
      ∃ c₁ c₂, c = c₁ ++ e :: c₂ ∧ (∀ q ∈ c₁, q.2 < e.2) ∧ (∀ q ∈ c, q.2 ≤ e.2) := by
  intro c
  induction c with
  | nil => intro e he; cases he
  | cons x c ih =>
      intro e he
      simp only [firstMaxEntry] at he
      cases hfc : firstMaxEntry c with
      | none =>
          rw [hfc] at he
          have hc : c = [] := firstMaxEntry_eq_none.mp hfc
          subst hc
          simp only [Option.some.injEq] at he
          subst he
          exact ⟨[], [], rfl, by simp, by simp⟩
      | some y =>
          rw [hfc] at he
          simp only [Option.some.injEq] at he
          obtain ⟨c₁, c₂, hceq, hlt, hle⟩ := ih y hfc
          by_cases hyx : y.2 ≤ x.2
          · rw [if_pos hyx] at he
            subst he
            refine ⟨[], c, rfl, by simp, ?_⟩
            intro q hq
            rcases List.mem_cons.mp hq with rfl | hq'
            · exact le_refl _
            · exact le_trans (hle q hq') hyx
          · rw [if_neg hyx] at he
            subst he
            refine ⟨x :: c₁, c₂, by rw [hceq, List.cons_append], ?_, ?_⟩
            · intro q hq
              rcases List.mem_cons.mp hq with rfl | hq'
              · exact Nat.lt_of_not_le hyx
              · exact hlt q hq'
            · intro q hq
              rcases List.mem_cons.mp hq with rfl | hq'
              · exact le_of_lt (Nat.lt_of_not_le hyx)
              · exact hle q hq'

/-- Building a counter entry by entry from the right. -/
theorem pyCounter_concat {α : Type} [DecidableEq α] (l : List α) (x : α) :
    pyCounter (l ++ [x]) = counterAdd (pyCounter l) x := by
  simp [pyCounter, List.foldl_append]

/-- Incrementing an existing key leaves the key list unchanged. -/
theorem counterKeys_counterAdd_of_mem {α : Type} [DecidableEq α] :
    ∀ (c : List (α × ℕ)) (x : α), x ∈ counterKeys c →
      counterKeys (counterAdd c x) = counterKeys c := by
  intro c
  induction c with
  | nil => intro x hx; cases hx
  | cons p ps ih =>
      intro x hx
      by_cases hp : p.1 = x
      · simp [counterAdd, hp, counterKeys]
      · have hx' : x ∈ counterKeys ps := by
          rcases List.mem_cons.mp hx with h | h
          · exact absurd h.symm hp
          · exact h
        have h2 := ih x hx'
        simp only [counterKeys] at h2
        simp [counterAdd, hp, counterKeys, h2]

/-- Adding a fresh key appends it at the end with count 1. -/
theorem counterAdd_of_not_mem {α : Type} [DecidableEq α] :
    ∀ (c : List (α × ℕ)) (x : α), x ∉ counterKeys c →
      counterAdd c x = c ++ [(x, 1)] := by
  intro c
  induction c with
  | nil => intro x _; rfl
  | cons p ps ih =>
      intro x hx
      have hp : p.1 ≠ x := by
        intro h
        exact hx (by simp [counterKeys, h])
      have hx' : x ∉ counterKeys ps := by
        intro h
        refine hx ?_
        simp only [counterKeys, List.map_cons, List.mem_cons]
        right
        simpa [counterKeys] using h
      simp [counterAdd, hp, ih x hx']

/-- Entry analysis of an increment on a counter with distinct keys:
every entry is either an untouched entry for a different key, or the
bumped entry of the incremented key. -/
theorem mem_counterAdd {α : Type} [DecidableEq α] :
    ∀ (c : List (α × ℕ)) (x : α), (counterKeys c).Nodup → x ∈ counterKeys c →
      ∀ q ∈ counterAdd c x,
        (q ∈ c ∧ q.1 ≠ x) ∨ (q.1 = x ∧ ∃ n, (x, n) ∈ c ∧ q.2 = n + 1) := by
  intro c
  induction c with
  | nil => intro x _ hx; cases hx
  | cons p ps ih =>
      intro x hnd hx q hq
      have hnd2 : (p.1 :: counterKeys ps).Nodup := by
        simpa only [counterKeys, List.map_cons] using hnd
      have hpk : p.1 ∉ counterKeys ps := (List.nodup_cons.mp hnd2).1
      have hnd' : (counterKeys ps).Nodup := (List.nodup_cons.mp hnd2).2
      by_cases hp : p.1 = x
      · rw [counterAdd, if_pos hp] at hq
        rcases List.mem_cons.mp hq with rfl | hq'
        · right
          refine ⟨hp, p.2, ?_, rfl⟩
          rw [← hp]
          exact List.mem_cons_self _ _
        · left
          have hqk : q.1 ∈ counterKeys ps := List.mem_map_of_mem Prod.fst hq'
          refine ⟨List.mem_cons_of_mem p hq', ?_⟩
          intro hqx
          rw [← hqx] at hp
          exact hpk (hp ▸ hqk)
      · rw [counterAdd, if_neg hp] at hq
        have hx' : x ∈ counterKeys ps := by
          rcases List.mem_cons.mp hx with h | h
          · exact absurd h.symm hp
          · exact h
        rcases List.mem_cons.mp hq with rfl | hq'
        · left
          exact ⟨List.mem_cons_self _ _, hp⟩
        · rcases ih x hnd' hx' q hq' with ⟨h1, h2⟩ | ⟨h1, n, h2, h3⟩
          · exact Or.inl ⟨List.mem_cons_of_mem p h1, h2⟩
          · exact Or.inr ⟨h1, n, List.mem_cons_of_mem p h2, h3⟩

/-- The full counter invariant: distinct keys; the keys are exactly the
elements of the list; each entry's count is the element's multiplicity;
and the keys appear in first-occurrence order (strictly increasing
first index). -/
theorem pyCounter_invariant {α : Type} [DecidableEq α] (l : List α) :
    (counterKeys (pyCounter l)).Nodup ∧
    (∀ a : α, a ∈ counterKeys (pyCounter l) ↔ a ∈ l) ∧
    (∀ q ∈ pyCounter l, q.2 = l.count q.1) ∧
    (counterKeys (pyCounter l)).Pairwise (fun a b => l.indexOf a < l.indexOf b) := by
  induction l using List.reverseRecOn with
  | nil =>
      refine ⟨?_, ?_, ?_, ?_⟩ <;> simp [pyCounter, counterKeys]
  | append_singleton l x ih =>
      obtain ⟨H1, H2, H3, H4⟩ := ih
      rw [pyCounter_concat]
      by_cases hx : x ∈ counterKeys (pyCounter l)
      · have hxl : x ∈ l := (H2 x).mp hx
        have hkeys := counterKeys_counterAdd_of_mem (pyCounter l) x hx
        refine ⟨by rw [hkeys]; exact H1, ?_, ?_, ?_⟩
        · intro a
          rw [hkeys]
          constructor
          · intro h
            exact List.mem_append_left _ ((H2 a).mp h)
          · intro h
            rcases List.mem_append.mp h with h' | h'
            · exact (H2 a).mpr h'
            · rw [List.mem_singleton.mp h']
              exact hx
        · intro q hq
          rcases mem_counterAdd (pyCounter l) x H1 hx q hq with ⟨hq1, hq2⟩ | ⟨hq1, n, hn, hq2⟩
          · have hxq : (x == q.1) = false := beq_eq_false_iff_ne.mpr (Ne.symm hq2)
            rw [H3 q hq1, List.count_append]
            simp [List.count_singleton', hxq]
            exact Ne.symm hq2
          · have hcount : n = l.count x := H3 (x, n) hn
            rw [hq2, hcount, hq1, List.count_append]
            simp [List.count_singleton']
        · rw [hkeys]
          refine List.Pairwise.imp_of_mem ?_ H4
          intro a b ha hb hab
          rw [List.indexOf_append_of_mem ((H2 a).mp ha),
            List.indexOf_append_of_mem ((H2 b).mp hb)]
          exact hab
      · have hxl : x ∉ l := fun h => hx ((H2 x).mpr h)
        rw [counterAdd_of_not_mem _ _ hx]
        have hkeys : counterKeys (pyCounter l ++ [(x, 1)]) = counterKeys (pyCounter l) ++ [x] := by
          simp [counterKeys]
        refine ⟨?_, ?_, ?_, ?_⟩
        · rw [hkeys]
          refine List.Nodup.append H1 (List.nodup_singleton x) ?_
          intro a ha hb
          rw [List.mem_singleton.mp hb] at ha
          exact hx ha
        · intro a
          rw [hkeys]
          simp only [List.mem_append, List.mem_singleton]
          exact or_congr (H2 a) Iff.rfl
        · intro q hq
          rcases List.mem_append.mp hq with hq' | hq'
          · have hQ1 : q.1 ≠ x := fun h => hx (h ▸ List.mem_map_of_mem Prod.fst hq')
            have hxq : (x == q.1) = false := beq_eq_false_iff_ne.mpr (Ne.symm hQ1)
            rw [H3 q hq', List.count_append]
            simp [List.count_singleton', hxq]
            exact Ne.symm hQ1
          · rw [List.mem_singleton.mp hq']
            have h0 : l.count x = 0 := List.count_eq_zero.mpr hxl
            rw [List.count_append, h0]
            simp [List.count_singleton']
        · rw [hkeys, List.pairwise_append]
          refine ⟨?_, List.pairwise_singleton _ _, ?_⟩
          · refine List.Pairwise.imp_of_mem ?_ H4
            intro a b ha hb hab
            rw [List.indexOf_append_of_mem ((H2 a).mp ha),
              List.indexOf_append_of_mem ((H2 b).mp hb)]
            exact hab
          · intro a ha b hb
            rw [List.mem_singleton.mp hb]
            rw [List.indexOf_append_of_mem ((H2 a).mp ha),
              List.indexOf_append_of_not_mem hxl]
            have hlt : List.indexOf a l < l.length := List.indexOf_lt_length.mpr ((H2 a).mp ha)
            simpa [List.indexOf_cons_self] using hlt

/-- The head of `take 1` is the head. -/
theorem head_take_one {β : Type} (s : List β) : (s.take 1).head? = s.head? := by
  cases s <;> rfl

/-- C9 (amended): for every non-empty batch the aggregator returns a
snapshot whose `polaridad_dominante` occurs in the batch, has maximal
frequency among the batch's polarities, and — when several polarities
tie for maximal frequency — is the one whose first occurrence in the
batch is earliest (first-occurrence tie-break, not enum definition
order). -/
theorem c9_dominant_polarity_amended (articulos : List Articulo)
    (trending : List TrendingTopic) (hne : articulos ≠ []) :
    ∃ snap, analyze_collective_sentiment articulos trending = some snap ∧
      snap.polaridad_dominante ∈ articulos.map (fun a => a.sentimiento) ∧
      (∀ p : Polaridad,
        (articulos.map (fun a => a.sentimiento)).count p ≤
          (articulos.map (fun a => a.sentimiento)).count snap.polaridad_dominante) ∧
      (∀ p ∈ articulos.map (fun a => a.sentimiento),
        (articulos.map (fun a => a.sentimiento)).count p =
          (articulos.map (fun a => a.sentimiento)).count snap.polaridad_dominante →
        (articulos.map (fun a => a.sentimiento)).indexOf snap.polaridad_dominante ≤
          (articulos.map (fun a => a.sentimiento)).indexOf p) := by
  obtain ⟨H1, H2, H3, H4⟩ := pyCounter_invariant (articulos.map (fun a => a.sentimiento))
  have hsne : articulos.map (fun a => a.sentimiento) ≠ [] := by
    cases articulos with
    | nil => exact absurd rfl hne
    | cons a l => simp
  have hcne : pyCounter (articulos.map (fun a => a.sentimiento)) ≠ [] := by
    obtain ⟨s, hs⟩ := List.exists_mem_of_ne_nil _ hsne
    have hk : s ∈ counterKeys (pyCounter (articulos.map (fun a => a.sentimiento))) :=
      (H2 s).mpr hs
    obtain ⟨q, hq, _⟩ := List.mem_map.mp hk
    exact List.ne_nil_of_mem hq
  obtain ⟨e, hfm⟩ : ∃ e, firstMaxEntry (pyCounter (articulos.map (fun a => a.sentimiento))) =
      some e := by
    cases hfo : firstMaxEntry (pyCounter (articulos.map (fun a => a.sentimiento))) with
    | none => exact absurd (firstMaxEntry_eq_none.mp hfo) hcne
    | some e => exact ⟨e, rfl⟩
  obtain ⟨c₁, c₂, hsplit, hlt, hle⟩ := firstMaxEntry_spec _ e hfm
  have he_mem : e ∈ pyCounter (articulos.map (fun a => a.sentimiento)) := by
    rw [hsplit]
    exact List.mem_append_right _ (List.mem_cons_self _ _)
  have hd_mem : e.1 ∈ articulos.map (fun a => a.sentimiento) :=
    (H2 e.1).mp (List.mem_map_of_mem Prod.fst he_mem)
  have hd_count : e.2 = (articulos.map (fun a => a.sentimiento)).count e.1 := H3 e he_mem
  refine ⟨{ periodo := "24h"
            distribucion_emociones :=
              (collectEmotionLists articulos).map (fun p => (p.1, listMean p.2))
            polaridad_dominante := e.1
            temas_calientes := trending.take 10
            nivel_tension_social := calculate_social_tension articulos trending
            indicadores_conflicto := detect_conflict_indicators articulos trending },
    ?_, ?_, ?_, ?_⟩
  · simp only [analyze_collective_sentiment, most_common]
    rw [head_take_one, head_insertionSort_desc, hfm]
  · exact hd_mem
  · intro p
    by_cases hp : p ∈ articulos.map (fun a => a.sentimiento)
    · have hk : p ∈ counterKeys (pyCounter (articulos.map (fun a => a.sentimiento))) :=
        (H2 p).mpr hp
      obtain ⟨q, hq, hq1⟩ := List.mem_map.mp hk
      have := hle q (hsplit ▸ hq)
      rw [H3 q hq, hq1] at this
      exact le_trans this (le_of_eq hd_count)
    · rw [List.count_eq_zero.mpr hp]
      exact Nat.zero_le _
  · intro p hp hcnt
    have hk : p ∈ counterKeys (pyCounter (articulos.map (fun a => a.sentimiento))) :=
      (H2 p).mpr hp
    obtain ⟨q, hq, hq1⟩ := List.mem_map.mp hk
    have hq2 : q.2 = e.2 := by
      rw [H3 q hq, hq1, hcnt, ← hd_count]
    rw [hsplit] at hq
    rcases List.mem_append.mp hq with hq' | hq'
    · exact absurd hq2 (Nat.ne_of_lt (hlt q hq'))
    · rcases List.mem_cons.mp hq' with rfl | hq''
      · rw [hq1]
      · rw [hsplit] at H4
        have hkeys_eq : counterKeys (c₁ ++ e :: c₂) =
            c₁.map Prod.fst ++ e.1 :: c₂.map Prod.fst := by
          simp [counterKeys]
        rw [hkeys_eq] at H4
        have hcross := (List.pairwise_append.mp H4).2.1
        have hhead := (List.pairwise_cons.mp hcross).1
        have := hhead q.1 (List.mem_map_of_mem Prod.fst hq'')
        rw [hq1] at this
        exact le_of_lt this

/-- C9 (counterexample): on the batch `[neutral article, positive
article]` the two polarities tie on frequency, yet the code returns
`neutral` (the first encountered), not `positive` (the first in enum
definition order) — refuting the claimed enum-order tie-break. -/
theorem c9_enum_order_tie_break_counterexample :
    (analyze_collective_sentiment [cexNeutralArt, cexPositivoArt] []).map
      (fun s => s.polaridad_dominante) = some Polaridad.neutral ∧
    ([cexNeutralArt, cexPositivoArt].map (fun a => a.sentimiento)).count Polaridad.positivo =
      ([cexNeutralArt, cexPositivoArt].map (fun a => a.sentimiento)).count Polaridad.neutral ∧
    Polaridad.neutral ≠ Polaridad.positivo :=
  ⟨by decide, by decide, by decide⟩

/-- Witness for the amended C9 on the concrete two-article batch. -/
theorem c9_dominant_polarity_amended_witness :
    ∃ snap, analyze_collective_sentiment [cexNeutralArt, cexPositivoArt] [] = some snap ∧
      snap.polaridad_dominante ∈ [cexNeutralArt, cexPositivoArt].map (fun a => a.sentimiento) ∧
      (∀ p : Polaridad,
        ([cexNeutralArt, cexPositivoArt].map (fun a => a.sentimiento)).count p ≤
          ([cexNeutralArt, cexPositivoArt].map (fun a => a.sentimiento)).count
            snap.polaridad_dominante) ∧
      (∀ p ∈ [cexNeutralArt, cexPositivoArt].map (fun a => a.sentimiento),
        ([cexNeutralArt, cexPositivoArt].map (fun a => a.sentimiento)).count p =
          ([cexNeutralArt, cexPositivoArt].map (fun a => a.sentimiento)).count
            snap.polaridad_dominante →
        ([cexNeutralArt, cexPositivoArt].map (fun a => a.sentimiento)).indexOf
            snap.polaridad_dominante ≤
          ([cexNeutralArt, cexPositivoArt].map (fun a => a.sentimiento)).indexOf p) :=
  c9_dominant_polarity_amended [cexNeutralArt, cexPositivoArt] [] (by simp)
